import Mathlib

/-
Verification of the metadata/state bookkeeping structures of src/src/types.h:
the untreated-range tracker (untreatedpart), the multipart-upload part ledger
(etagpair / filepart), and the access-control enumeration (acl_t).

Machine integers (off_t, int, long) are modelled as Int; the claims under
consideration stay far from the 64-bit overflow boundary.
-/

/-- Untreated byte range `[start, start + size)` with a worker tag.
Mirrors `struct untreatedpart` of src/src/types.h. -/
structure untreatedpart where
  start : Int
  size : Int
  untreated_tag : Int
deriving DecidableEq

namespace untreatedpart

/-- `untreatedpart::clear()`: reset every field to zero. -/
def clear (_ : untreatedpart) : untreatedpart :=
  { start := 0, size := 0, untreated_tag := 0 }

/-- The `untreatedpart(off_t, off_t, long)` constructor: initialise the three
fields from the arguments, then clear them all when `part_start < 0` or
`part_size <= 0`. -/
def make (part_start part_size part_untreated_tag : Int) : untreatedpart :=
  let u : untreatedpart :=
    { start := part_start, size := part_size, untreated_tag := part_untreated_tag }
  if part_start < 0 ∨ part_size ≤ 0 then u.clear else u

/-- `untreatedpart::check_overlap(off_t, off_t)`: false on invalid input or
when the intervals are strictly separated, true otherwise. -/
def check_overlap (u : untreatedpart) (chk_start chk_size : Int) : Bool :=
  if chk_start < 0 ∨ chk_size ≤ 0 ∨ chk_start + chk_size < u.start
      ∨ u.start + u.size < chk_start then
    false
  else
    true

/-- `untreatedpart::stretch(off_t, off_t, long)`: no-op returning false unless
`check_overlap` holds; otherwise replace the range by the union interval and
take the new tag. The mutated struct is returned alongside the Bool result. -/
def stretch (u : untreatedpart) (add_start add_size tag : Int) :
    Bool × untreatedpart :=
  if ¬ u.check_overlap add_start add_size then
    (false, u)
  else
    let new_start := min u.start add_start
    let new_next_start := max (u.start + u.size) (add_start + add_size)
    (true, { start := new_start, size := new_next_start - new_start,
             untreated_tag := tag })

end untreatedpart

/-- Etag string and part number pair, mirroring `struct etagpair`.
The C++ constructor maps a NULL `petag` argument to the empty string. -/
structure etagpair where
  etag : String
  part_num : Int
deriving DecidableEq

/-- Part information for multipart upload, mirroring `struct filepart`.
Pointer fields (`petag`, `streambuffer`) are modelled as options with
`none` standing for NULL. -/
structure filepart where
  uploaded : Bool
  etag : String
  fd : Int
  startpos : Int
  size : Int
  is_copy : Bool
  petag : Option etagpair
  streambuffer : Option String
  streampos : Int
deriving DecidableEq

namespace filepart

/-- The `filepart(bool, int, off_t, off_t, bool, etagpair*)` constructor:
its member-initialiser list sets `uploaded(false)` (the `is_uploaded`
argument is never read), leaves `etag` default-constructed as "", and
copies the remaining arguments. -/
def make (is_uploaded : Bool) (fd0 : Int) (part_start part_size : Int)
    (is_copy_part : Bool) (petagpair : Option etagpair) : filepart :=
  { uploaded := false, etag := "", fd := fd0, startpos := part_start,
    size := part_size, is_copy := is_copy_part, petag := petagpair,
    streambuffer := none, streampos := 0 }

/-- `filepart::add_etag_list(etaglist_t&, int)`: when `partnum` is -1 it is
replaced by `list.size() + 1`, then `etagpair(NULL, partnum)` is appended and
`petag` is pointed at the appended node. Returns the grown list together with
the value of the node `petag` refers to. -/
def add_etag_list (l : List etagpair) (partnum : Int) :
    List etagpair × etagpair :=
  let pn := if partnum = -1 then (l.length : Int) + 1 else partnum
  let node : etagpair := { etag := "", part_num := pn }
  (l ++ [node], node)

end filepart

/-- The `acl_t` access-control enumeration of src/src/types.h. -/
inductive acl_t where
  | PRIVATE
  | PUBLIC_READ
  | PUBLIC_READ_WRITE
  | DEFAULT
  | UNKNOWN
deriving DecidableEq

namespace acl_t

/-- `acl_t::str()`: the switch over the five enum values; `UNKNOWN` yields
the NULL pointer, modelled as `some none`; the `abort()` call after the
switch is modelled as the `Except.error` branch. -/
def str (v : acl_t) : Except Unit (Option String) :=
  if v = PRIVATE then .ok (some "private")
  else if v = PUBLIC_READ then .ok (some "public-read")
  else if v = PUBLIC_READ_WRITE then .ok (some "public-read-write")
  else if v = DEFAULT then .ok (some "default")
  else if v = UNKNOWN then .ok none
  else .error ()

/-- `acl_t::from_str(const char*)`: exact string comparison against the four
canonical values, anything else gives `UNKNOWN`. -/
def from_str (acl : String) : acl_t :=
  if acl = "private" then PRIVATE
  else if acl = "public-read" then PUBLIC_READ
  else if acl = "public-read-write" then PUBLIC_READ_WRITE
  else if acl = "default" then DEFAULT
  else UNKNOWN

end acl_t

/-- C1: when the receiver range satisfies the invariant (`start ≥ 0`,
`size > 0`), the added range is valid (`add_start ≥ 0`, `add_size > 0`) and
the two half-open intervals overlap or touch, `stretch` returns true and the
resulting range is exactly the union interval with the new tag
(last-writer-wins). -/
theorem stretch_merges_to_union (u : untreatedpart) (a n t : Int)
    (hs : 0 ≤ u.start) (hz : 0 < u.size) (ha : 0 ≤ a) (hn : 0 < n)
    (hov : a ≤ u.start + u.size ∧ u.start ≤ a + n) :
    (u.stretch a n t).1 = true ∧
    (u.stretch a n t).2.start = min u.start a ∧
    (u.stretch a n t).2.start + (u.stretch a n t).2.size
      = max (u.start + u.size) (a + n) ∧
    (u.stretch a n t).2.untreated_tag = t := by
  have hov' : u.check_overlap a n = true := by
    simp only [untreatedpart.check_overlap, ite_eq_right_iff]
    intro h
    rcases h with h | h | h | h <;> omega
  refine ⟨?_, ?_, ?_, ?_⟩ <;>
    simp only [untreatedpart.stretch, hov', not_true_eq_false, if_false] <;>
    omega

/-- C1 witness: stretching the range `[0,10)` by `[10,5)` with tag 7. -/
theorem stretch_merges_to_union_witness :
    (((untreatedpart.mk 0 10 0).stretch 10 5 7).1 = true ∧
      ((untreatedpart.mk 0 10 0).stretch 10 5 7).2.start
        = min (untreatedpart.mk 0 10 0).start 10 ∧
      ((untreatedpart.mk 0 10 0).stretch 10 5 7).2.start
          + ((untreatedpart.mk 0 10 0).stretch 10 5 7).2.size
        = max ((untreatedpart.mk 0 10 0).start + (untreatedpart.mk 0 10 0).size)
            (10 + 5) ∧
      ((untreatedpart.mk 0 10 0).stretch 10 5 7).2.untreated_tag = 7) :=
  stretch_merges_to_union (untreatedpart.mk 0 10 0) 10 5 7
    (by decide) (by decide) (by decide) (by decide) (by decide)

/-- C2: for a non-negative start and positive size, `check_overlap` returns
exactly the value of `!((chk_start+chk_size) < start || (start+size) < chk_start)`;
in particular the range `[0,10)` and the added range `[10,5)` are reported as
mergeable and stretching yields exactly `[0,15)`. -/
theorem check_overlap_iff_formula (u : untreatedpart) (s n : Int)
    (hs : 0 ≤ s) (hn : 0 < n) :
    u.check_overlap s n
      = !(decide (s + n < u.start) || decide (u.start + u.size < s)) ∧
    (untreatedpart.mk 0 10 0).check_overlap 10 5 = true ∧
    (untreatedpart.mk 0 10 0).stretch 10 5 3 = (true, untreatedpart.mk 0 15 3) := by
  refine ⟨?_, by decide, by decide⟩
  simp only [untreatedpart.check_overlap]
  split_ifs with h
  · have h' : s + n < u.start ∨ u.start + u.size < s := by omega
    rcases h' with h' | h' <;> simp [h']
  · have h1 : ¬ s + n < u.start := by omega
    have h2 : ¬ u.start + u.size < s := by omega
    simp [h1, h2]

/-- C2 witness: the range `[2,5)` checked against `[4,6)`. -/
theorem check_overlap_iff_formula_witness :
    (untreatedpart.mk 2 3 0).check_overlap 4 2
      = !(decide ((4:Int) + 2 < (untreatedpart.mk 2 3 0).start)
          || decide ((untreatedpart.mk 2 3 0).start
              + (untreatedpart.mk 2 3 0).size < 4)) :=
  (check_overlap_iff_formula (untreatedpart.mk 2 3 0) 4 2
    (by decide) (by decide)).1

/-- C3: invalid input (`add_start < 0` or `add_size ≤ 0`) makes the range
operations a no-op with no partial mutation: `check_overlap` returns false and
`stretch` returns false with the receiver unchanged. -/
theorem invalid_input_noop (u : untreatedpart) (a n t : Int)
    (h : a < 0 ∨ n ≤ 0) :
    u.check_overlap a n = false ∧ u.stretch a n t = (false, u) := by
  have hc : a < 0 ∨ n ≤ 0 ∨ a + n < u.start ∨ u.start + u.size < a := by
    rcases h with h | h
    · exact Or.inl h
    · exact Or.inr (Or.inl h)
  have hco : u.check_overlap a n = false := by
    simp [untreatedpart.check_overlap, hc]
  exact ⟨hco, by simp [untreatedpart.stretch, hco]⟩

/-- C3 witness: a negative start (-1) against the range `[0,5)`. -/
theorem invalid_input_noop_witness :
    (untreatedpart.mk 0 5 0).check_overlap (-1) 3 = false ∧
    (untreatedpart.mk 0 5 0).stretch (-1) 3 2 = (false, untreatedpart.mk 0 5 0) :=
  invalid_input_noop (untreatedpart.mk 0 5 0) (-1) 3 2 (by decide)

/-- C4: the constructor normalizes every invalid argument pair
(`part_start < 0` or `part_size ≤ 0`) to the zero range with zero tag, and
stores valid arguments exactly as given. -/
theorem make_normalizes (s n t : Int) :
    (s < 0 ∨ n ≤ 0 → untreatedpart.make s n t = untreatedpart.mk 0 0 0) ∧
    (0 ≤ s ∧ 0 < n → untreatedpart.make s n t = untreatedpart.mk s n t) := by
  constructor
  · intro h
    simp [untreatedpart.make, untreatedpart.clear, h]
  · intro h
    have h' : ¬(s < 0 ∨ n ≤ 0) := by omega
    simp [untreatedpart.make, h']

/-- C4 witness: `(-3, 4)` is cleared to the zero range while `(2, 4)` is kept. -/
theorem make_normalizes_witness :
    untreatedpart.make (-3) 4 9 = untreatedpart.mk 0 0 0 ∧
    untreatedpart.make 2 4 9 = untreatedpart.mk 2 4 9 :=
  ⟨(make_normalizes (-3) 4 9).1 (by decide),
   (make_normalizes 2 4 9).2 (by decide)⟩

/-- C5: `add_etag_list` with the part number omitted (`partnum = -1`) appends
a pair numbered `list.size() + 1`; three successive default-numbered calls
starting from the empty list yield part numbers 1, 2, 3; an explicitly given
part number (anything other than -1) is stored unchanged. -/
theorem add_etag_list_numbering :
    (∀ l : List etagpair,
        (filepart.add_etag_list l (-1)).2.part_num = (l.length : Int) + 1 ∧
        (filepart.add_etag_list l (-1)).1
          = l ++ [etagpair.mk "" ((l.length : Int) + 1)]) ∧
    (∀ (l : List etagpair) (p : Int), p ≠ -1 →
        (filepart.add_etag_list l p).2.part_num = p) ∧
    (filepart.add_etag_list [] (-1)).2.part_num = 1 ∧
    (filepart.add_etag_list (filepart.add_etag_list [] (-1)).1 (-1)).2.part_num
      = 2 ∧
    (filepart.add_etag_list
        (filepart.add_etag_list (filepart.add_etag_list [] (-1)).1 (-1)).1
        (-1)).2.part_num = 3 := by
  refine ⟨fun l => ⟨rfl, rfl⟩, ?_, rfl, rfl, rfl⟩
  intro l p hp
  simp [filepart.add_etag_list, hp]

/-- C5 witness: an explicit part number 5 is stored unchanged. -/
theorem add_etag_list_numbering_witness :
    (filepart.add_etag_list [] 5).2.part_num = 5 :=
  add_etag_list_numbering.2.1 [] 5 (by decide)

/-- C6: `from_str` followed by `str` round-trips on the four canonical ACL
strings, and every other string (including the wrong-case "PUBLIC-READ") is
mapped to `UNKNOWN`. -/
theorem acl_roundtrip :
    (acl_t.from_str "private").str = .ok (some "private") ∧
    (acl_t.from_str "public-read").str = .ok (some "public-read") ∧
    (acl_t.from_str "public-read-write").str = .ok (some "public-read-write") ∧
    (acl_t.from_str "default").str = .ok (some "default") ∧
    (∀ s : String, s ≠ "private" → s ≠ "public-read" →
        s ≠ "public-read-write" → s ≠ "default" →
        acl_t.from_str s = .UNKNOWN) ∧
    acl_t.from_str "PUBLIC-READ" = .UNKNOWN := by
  refine ⟨rfl, rfl, rfl, rfl, ?_, rfl⟩
  intro s h1 h2 h3 h4
  simp [acl_t.from_str, h1, h2, h3, h4]

/-- C6 witness: an unrecognized ACL string parses to `UNKNOWN`. -/
theorem acl_roundtrip_witness :
    acl_t.from_str "bucket-owner-full-control" = .UNKNOWN :=
  acl_roundtrip.2.2.2.2.1 "bucket-owner-full-control"
    (by decide) (by decide) (by decide) (by decide)

/-- C7: `str` is total over the five enum values — it always returns through
the switch, never reaching the `abort()` branch — yielding the canonical
lowercase string for the four valid levels and NULL exactly for `UNKNOWN`. -/
theorem acl_str_total :
    (∀ a : acl_t, ∃ r, a.str = Except.ok r) ∧
    acl_t.PRIVATE.str = .ok (some "private") ∧
    acl_t.PUBLIC_READ.str = .ok (some "public-read") ∧
    acl_t.PUBLIC_READ_WRITE.str = .ok (some "public-read-write") ∧
    acl_t.DEFAULT.str = .ok (some "default") ∧
    acl_t.UNKNOWN.str = .ok none := by
  refine ⟨?_, rfl, rfl, rfl, rfl, rfl⟩
  intro a
  cases a <;> exact ⟨_, rfl⟩

/-- C9: the `filepart` constructor ignores its `is_uploaded` argument — the
constructed value always has `uploaded = false`, whatever the arguments. -/
theorem filepart_ctor_uploaded_false :
    ∀ (b : Bool) (fd0 ps sz : Int) (c : Bool) (p : Option etagpair),
      (filepart.make b fd0 ps sz c p).uploaded = false :=
  fun _ _ _ _ _ _ => rfl

/-- C10: a cleared range (`start = 0`, `size = 0`) still reports overlap at
the origin: for every `n > 0`, `check_overlap 0 n` is true, and
`stretch 0 n tag` succeeds turning the degenerate range into `[0, n)`. -/
theorem zero_range_overlaps_at_origin (u : untreatedpart) (n t : Int)
    (h0 : u.start = 0) (h1 : u.size = 0) (hn : 0 < n) :
    u.check_overlap 0 n = true ∧
    u.stretch 0 n t = (true, untreatedpart.mk 0 n t) := by
  have hco : u.check_overlap 0 n = true := by
    simp only [untreatedpart.check_overlap, ite_eq_right_iff]
    intro h
    rcases h with h | h | h | h <;> omega
  refine ⟨hco, ?_⟩
  simp only [untreatedpart.stretch, hco, not_true_eq_false, if_false,
    Prod.mk.injEq, untreatedpart.mk.injEq, true_and, and_true]
  omega

/-- C10 witness: the result of `clear` stretched by `[0,8)` with tag 2. -/
theorem zero_range_overlaps_at_origin_witness :
    ((untreatedpart.mk 3 4 5).clear).check_overlap 0 8 = true ∧
    ((untreatedpart.mk 3 4 5).clear).stretch 0 8 2
      = (true, untreatedpart.mk 0 8 2) :=
  zero_range_overlaps_at_origin ((untreatedpart.mk 3 4 5).clear) 8 2
    rfl rfl (by decide)
